import Mathlib

/-!
Verification of the schema-derivation engine of `trpc-to-openapi`
(`src/adapters/standalone.ts`): `getParameterObjects`,
`getRequestBodyObject`, `errorResponseObject` and `getResponsesObject`.

Validator trees (zod schemas) are embedded as the inductive `ZodType`.
The classifier utilities (`instanceofZodType...`, `unwrapZodType`,
`zodSupportsCoerce`, imported from `../utils/zod`) and the validator
library's `isOptional` method are not part of the supplied source core;
they are modelled from the spec's Schema Capability Classifier contract
(spec section 4.1) and marked as such on each definition.  The
module-level capability flag `zodSupportsCoerce` is threaded as an
explicit boolean argument, following the spec's instruction to treat it
as an injected capability.
-/

set_option autoImplicit false

/-- Modelled from the spec: a Validator Node — "an opaque, recursively-composable
description of an accepted value shape".  Constructors cover the structural kinds
the engine distinguishes: object shapes (ordered field list; field names are
unique, as in a JS object literal), string, the coercible primitives
(number / boolean / big-integer / date), the optional wrapper, the pass-through
wrappers (nullable, default value, transform/effects), void, never, undefined,
arrays (used by the error envelope), and an opaque `other` for any further kind. -/
inductive ZodType where
  | string
  | number
  | boolean
  | bigint
  | date
  | object (shape : List (String × ZodType))
  | optional (inner : ZodType)
  | nullable (inner : ZodType)
  | withDefault (inner : ZodType)
  | effects (inner : ZodType)
  | array (inner : ZodType)
  | void
  | never
  | undef
  | other

/-- A schema argument as received over the `unknown`-typed boundary: either an
actual validator node or some arbitrary non-validator value. -/
inductive Unknown where
  | zod (t : ZodType)
  | notZod

/-- Structural kind tags, mirroring `z.ZodFirstPartyTypeKind`. -/
inductive ZodKind where
  | string
  | number
  | boolean
  | bigint
  | date
  | object
  | optional
  | nullable
  | withDefault
  | effects
  | array
  | void
  | never
  | undef
  | other
deriving DecidableEq

/-- Modelled from the spec: the structural kind of a node (spec 4.1 `kindIs`). -/
def kindOf : ZodType → ZodKind
  | .string => .string
  | .number => .number
  | .boolean => .boolean
  | .bigint => .bigint
  | .date => .date
  | .object _ => .object
  | .optional _ => .optional
  | .nullable _ => .nullable
  | .withDefault _ => .withDefault
  | .effects _ => .effects
  | .array _ => .array
  | .void => .void
  | .never => .never
  | .undef => .undef
  | .other => .other

/-- Modelled from the spec: `instanceofZodTypeKind` from `../utils/zod` — a
structural kind test (spec 4.1 `kindIs(node, kind)`). -/
def instanceofZodTypeKind (t : ZodType) (k : ZodKind) : Bool :=
  kindOf t == k

/-- Modelled from the spec: `instanceofZodTypeOptional` from `../utils/zod` —
single-layer optional-wrapper test (spec 4.1 `isOptionalWrapper`). -/
def instanceofZodTypeOptional : ZodType → Bool
  | .optional _ => true
  | _ => false

/-- Modelled from the spec: the spec's `isOptionalWrapper` predicate by its own
name, for stating claims; identical to `instanceofZodTypeOptional`. -/
def isOptionalWrapper (t : ZodType) : Bool :=
  instanceofZodTypeOptional t

/-- Modelled from the spec: the validator library's `isOptional()` method as the
spec specifies its use — spec 4.2 step 2 computes `isRequired =
!isOptionalWrapper(schema)`, so `isOptional` answers the optional-wrapper test. -/
def ZodType.isOptional (t : ZodType) : Bool :=
  instanceofZodTypeOptional t

/-- Modelled from the spec: single-layer optional unwrap, the `.unwrap()` call on
an optional wrapper (spec 4.1 `unwrapOptional`); identity elsewhere. -/
def unwrapOptionalOne : ZodType → ZodType
  | .optional inner => inner
  | t => t

/-- Modelled from the spec: `unwrapZodType` from `../utils/zod` — "repeatedly
strips pass-through wrapper layers (and, if requested, the optional wrapper)
until reaching a structurally meaningful node" (spec 4.1 `unwrap`). -/
def unwrapZodType : ZodType → Bool → ZodType
  | .optional inner, true => unwrapZodType inner true
  | .nullable inner, throughOptional => unwrapZodType inner throughOptional
  | .withDefault inner, throughOptional => unwrapZodType inner throughOptional
  | .effects inner, throughOptional => unwrapZodType inner throughOptional
  | t, _ => t

/-- Modelled from the spec: `instanceofZodType` from `../utils/zod` — recognizes
whether an `unknown` value is a validator node (spec 4.1 `isValidatorNode`). -/
def instanceofZodType : Unknown → Bool
  | .zod _ => true
  | .notZod => false

/-- Modelled from the spec: `instanceofZodTypeObject` from `../utils/zod` — the
node is an object-shape node. -/
def instanceofZodTypeObject : ZodType → Bool
  | .object _ => true
  | _ => false

/-- Modelled from the spec: `instanceofZodTypeLikeVoid` from `../utils/zod` —
void-like, "accepts only absence of value" (spec section 3). -/
def instanceofZodTypeLikeVoid : ZodType → Bool
  | .void => true
  | _ => false

/-- Modelled from the spec: `instanceofZodTypeLikeString` from `../utils/zod` —
spec 4.2 step 6 tests whether "the field's unwrapped node" is string-like, i.e.
natively parses from a string. -/
def instanceofZodTypeLikeString (t : ZodType) : Bool :=
  match unwrapZodType t true with
  | .string => true
  | _ => false

/-- Modelled from the spec: `instanceofZodTypeCoercible` from `../utils/zod` —
spec 4.2 step 6 tests whether the field's unwrapped node is coercible, i.e. its
native type is number, boolean, big-integer or date. -/
def instanceofZodTypeCoercible (t : ZodType) : Bool :=
  match unwrapZodType t true with
  | .number => true
  | .boolean => true
  | .bigint => true
  | .date => true
  | _ => false

/-- Uniform error value carrying a message and a symbolic code, embedding
`TRPCError` as raised by the derivation engine. -/
structure TRPCError where
  message : String
  code : String
deriving DecidableEq

/-- Location of a derived parameter, `'path' | 'query'`. -/
inductive ParamType where
  | path
  | query
deriving DecidableEq

/-- The record built for one object field by the `.map` step of
`getParameterObjects` (standalone.ts lines 132-137). -/
structure ParamEntry where
  name : String
  paramType : ParamType
  required : Bool
  schema : ZodType

/-- The result shape of `getParameterObjects`: `{header, path, query}` where
`path` and `query` are rebuilt object schemas. -/
structure ZodOpenApiParameters where
  header : Option ZodType
  path : ZodType
  query : ZodType

/-- The result shape of `getRequestBodyObject`: `required` flag plus a content
map from content-type string to the body schema. -/
structure ZodOpenApiRequestBodyObject where
  required : Bool
  content : List (String × ZodType)

/-- The `'all' | 'path' | 'query'` scope argument of `getParameterObjects`. -/
inductive InType where
  | all
  | path
  | query
deriving DecidableEq

/-- The scope filter of `getParameterObjects` (standalone.ts lines 92-100):
`path` keeps only path parameters, `query` keeps only non-path parameters,
`all` keeps everything. -/
def scopeSelects (pathParameters : List String) (inType : InType) (shapeKey : String) : Bool :=
  match inType with
  | .path => pathParameters.contains shapeKey
  | .query => !pathParameters.contains shapeKey
  | .all => true

/-- The tail of the per-field derivation (standalone.ts lines 122-137): the
optional-wrapper check, the forbidden optional path parameter, the one-layer
unwrap for optional query fields, and the assembled parameter entry. -/
def finishShapeKey (isRequired isShapeRequired isPathParameter : Bool) (shapeKey : String)
    (shapeSchema : ZodType) : Except TRPCError ParamEntry :=
  if instanceofZodTypeOptional shapeSchema then
    if isPathParameter then
      .error { message := s!"Path parameter: \"{shapeKey}\" must not be optional",
               code := "INTERNAL_SERVER_ERROR" }
    else
      .ok { name := shapeKey,
            paramType := if isPathParameter then ParamType.path else ParamType.query,
            required := isPathParameter || (isRequired && isShapeRequired),
            schema := unwrapOptionalOne shapeSchema }
  else
    .ok { name := shapeKey,
          paramType := if isPathParameter then ParamType.path else ParamType.query,
          required := isPathParameter || (isRequired && isShapeRequired),
          schema := shapeSchema }

/-- The `.map` step of `getParameterObjects` (standalone.ts lines 101-138):
derives one parameter entry from one object field, raising the unsupported-type
errors (with the message variant selected by the coercion capability flag)
before the optional-path-parameter check. -/
def mapShapeKey (zodSupportsCoerce : Bool) (isRequired : Bool) (pathParameters : List String)
    (shapeKey : String) (shapeSchema : ZodType) : Except TRPCError ParamEntry :=
  let isShapeRequired := !shapeSchema.isOptional
  let isPathParameter := pathParameters.contains shapeKey
  if !instanceofZodTypeLikeString shapeSchema then
    if zodSupportsCoerce then
      if !instanceofZodTypeCoercible shapeSchema then
        .error { message :=
                   s!"Input parser key: \"{shapeKey}\" must be ZodString, ZodNumber, ZodBoolean, ZodBigInt or ZodDate",
                 code := "INTERNAL_SERVER_ERROR" }
      else
        finishShapeKey isRequired isShapeRequired isPathParameter shapeKey shapeSchema
    else
      .error { message := s!"Input parser key: \"{shapeKey}\" must be ZodString",
               code := "INTERNAL_SERVER_ERROR" }
  else
    finishShapeKey isRequired isShapeRequired isPathParameter shapeKey shapeSchema

/-- Left-to-right effectful map, embedding JavaScript's `Array.prototype.map`
over a callback that may throw: the first thrown error aborts the whole map. -/
def mapExcept {α β : Type} (g : α → Except TRPCError β) : List α → Except TRPCError (List β)
  | [] => .ok []
  | x :: xs =>
    match g x with
    | .error e => .error e
    | .ok y =>
      match mapExcept g xs with
      | .error e => .error e
      | .ok ys => .ok (y :: ys)

/-- The `.reduce` step of `getParameterObjects` (standalone.ts lines 139-145):
partitions the derived entries into the path and query field maps, wrapping a
field's node back in an optional marker when `required` is false. -/
def reduceParams (entries : List ParamEntry) :
    List (String × ZodType) × List (String × ZodType) :=
  entries.foldl
    (fun acc e =>
      let node := if e.required then e.schema else ZodType.optional e.schema
      match e.paramType with
      | .path => (acc.1 ++ [(e.name, node)], acc.2)
      | .query => (acc.1, acc.2 ++ [(e.name, node)]))
    ([], [])

/-- Translation of `getParameterObjects` (standalone.ts lines 52-148).  The
module-level `zodSupportsCoerce` capability flag is passed explicitly. -/
def getParameterObjects (zodSupportsCoerce : Bool) (schema : Unknown)
    (pathParameters : List String) (headersSchema : Option ZodType) (inType : InType) :
    Except TRPCError (Option ZodOpenApiParameters) :=
  match schema with
  | .notZod =>
    .error { message := "Input parser expects a Zod validator", code := "INTERNAL_SERVER_ERROR" }
  | .zod s =>
    let isRequired := !s.isOptional
    let unwrappedSchema := unwrapZodType s true
    if pathParameters.length == 0 && instanceofZodTypeLikeVoid unwrappedSchema then
      .ok none
    else
      match unwrappedSchema with
      | .object shape =>
        let shapeKeys := shape.map Prod.fst
        match pathParameters.find? (fun p => !shapeKeys.contains p) with
        | some missing =>
          .error { message := s!"Input parser expects key from path: \"{missing}\"",
                   code := "INTERNAL_SERVER_ERROR" }
        | none =>
          match mapExcept
              (fun p => mapShapeKey zodSupportsCoerce isRequired pathParameters p.1 p.2)
              (shape.filter (fun p => scopeSelects pathParameters inType p.1)) with
          | .error e => .error e
          | .ok entries =>
            let pq := reduceParams entries
            .ok (some { header := headersSchema,
                        path := ZodType.object pq.1,
                        query := ZodType.object pq.2 })
      | _ =>
        .error { message := "Input parser must be a ZodObject", code := "INTERNAL_SERVER_ERROR" }

/-- Translation of `getRequestBodyObject` (standalone.ts lines 150-199).  The
`omit` of the path-parameter mask keeps exactly the fields whose name is not a
declared path parameter. -/
def getRequestBodyObject (schema : Unknown) (pathParameters : List String)
    (contentTypes : List String) : Except TRPCError (Option ZodOpenApiRequestBodyObject) :=
  match schema with
  | .notZod =>
    .error { message := "Input parser expects a Zod validator", code := "INTERNAL_SERVER_ERROR" }
  | .zod s =>
    let isRequired := !s.isOptional
    let unwrappedSchema := unwrapZodType s true
    if pathParameters.length == 0 && instanceofZodTypeLikeVoid unwrappedSchema then
      .ok none
    else
      match unwrappedSchema with
      | .object shape =>
        let dedupedShape := shape.filter (fun p => !pathParameters.contains p.1)
        if decide (pathParameters.length > 0) && (dedupedShape.length == 0) then
          .ok none
        else
          .ok (some { required := isRequired,
                      content := contentTypes.map
                        (fun contentType => (contentType, ZodType.object dedupedShape)) })
      | _ =>
        .error { message := "Input parser must be a ZodObject", code := "INTERNAL_SERVER_ERROR" }

/-- The content schema of a response entry: the empty-object "no constraint"
schema `\x7b\x7d`, the accepts-nothing marker `\x7bnot: \x7b\x7d\x7d`, or a
validator node itself. -/
inductive ResponseContentSchema where
  | noConstraint
  | acceptsNothing
  | zodSchema (t : ZodType)

/-- A single response object `{description, headers?, content}`. -/
structure ZodOpenApiResponseObject where
  description : String
  headers : Option ZodType
  content : List (String × ResponseContentSchema)

/-- The fixed Error Envelope validator schema (standalone.ts lines 205-221):
`{message: string, code: string, issues?: array of {message: string}}`.  The
`.openapi` metadata annotations (descriptions, examples, ref/title) attach
documentation without changing the validator's shape and are elided here. -/
def errorEnvelopeSchema : ZodType :=
  ZodType.object
    [("message", ZodType.string),
     ("code", ZodType.string),
     ("issues", ZodType.optional (ZodType.array (ZodType.object [("message", ZodType.string)])))]

/-- Translation of the module constant `errorResponseObject`
(standalone.ts lines 201-224). -/
def errorResponseObject : ZodOpenApiResponseObject :=
  { description := "Error response",
    headers := none,
    content := [("application/json", ResponseContentSchema.zodSchema errorEnvelopeSchema)] }

/-- Translation of `getResponsesObject` (standalone.ts lines 226-256): the
responses mapping with its `200` success entry and `default` error entry. -/
def getResponsesObject (schema : Unknown) (headers : Option ZodType) :
    Except TRPCError (List (String × ZodOpenApiResponseObject)) :=
  match schema with
  | .notZod =>
    .error { message := "Output parser expects a Zod validator", code := "INTERNAL_SERVER_ERROR" }
  | .zod s =>
    let successResponseObject : ZodOpenApiResponseObject :=
      { description := "Successful response",
        headers := headers,
        content := [("application/json",
          if instanceofZodTypeKind s ZodKind.void then
            ResponseContentSchema.noConstraint
          else if instanceofZodTypeKind s ZodKind.never || instanceofZodTypeKind s ZodKind.undef then
            ResponseContentSchema.acceptsNothing
          else
            ResponseContentSchema.zodSchema s)] }
    .ok [("200", successResponseObject), ("default", errorResponseObject)]

/-- Field names of an object-shaped node; empty for any other node. -/
def objKeys : ZodType → List String
  | .object shape => shape.map Prod.fst
  | _ => []

/-- Field names documented by a derived request body: the keys of the schema
under its first content type (every content type carries the same schema). -/
def bodyFieldNames : Option ZodOpenApiRequestBodyObject → List String
  | none => []
  | some rb =>
    match rb.content with
    | [] => []
    | (_, sch) :: _ => objKeys sch

/-- The union of the field names documented by derived parameters and body. -/
def unionFieldNames (res : ZodOpenApiParameters) (body : Option ZodOpenApiRequestBodyObject) :
    List String :=
  objKeys res.path ++ objKeys res.query ++ bodyFieldNames body

/-- The output pair built by the `.reduce` step for one entry. -/
def paramPair (e : ParamEntry) : String × ZodType :=
  (e.name, if e.required then e.schema else ZodType.optional e.schema)

/-! ### Helper lemmas about the per-field derivation and the fold steps -/

/-- A successful `finishShapeKey` call returns exactly the parameter entry the
source constructs. -/
theorem finishShapeKey_ok_eq (r sr ip : Bool) (k : String) (f : ZodType) (e : ParamEntry)
    (h : finishShapeKey r sr ip k f = Except.ok e) :
    e = { name := k,
          paramType := if ip then ParamType.path else ParamType.query,
          required := ip || (r && sr),
          schema := if instanceofZodTypeOptional f then unwrapOptionalOne f else f } := by
  unfold finishShapeKey at h
  split at h
  · split at h
    · exact Except.noConfusion h
    · injection h with h
      subst h
      simp_all
  · injection h with h
    subst h
    simp_all

/-- A successful `mapShapeKey` call returns exactly the parameter entry the
source constructs: name, location by path-parameter membership, required flag,
and the (one-layer optional-unwrapped) field node. -/
theorem mapShapeKey_ok_eq (c r : Bool) (pp : List String) (k : String) (f : ZodType)
    (e : ParamEntry) (h : mapShapeKey c r pp k f = Except.ok e) :
    e = { name := k,
          paramType := if pp.contains k then ParamType.path else ParamType.query,
          required := pp.contains k || (r && !f.isOptional),
          schema := if instanceofZodTypeOptional f then unwrapOptionalOne f else f } := by
  unfold mapShapeKey at h
  dsimp only at h
  split at h
  · split at h
    · split at h
      · exact Except.noConfusion h
      · exact finishShapeKey_ok_eq _ _ _ _ _ _ h
    · exact Except.noConfusion h
  · exact finishShapeKey_ok_eq _ _ _ _ _ _ h

/-- A successful `mapExcept` run relates input and output lists elementwise. -/
theorem mapExcept_ok_forall₂ {α β : Type} (g : α → Except TRPCError β) :
    ∀ (xs : List α) (ys : List β), mapExcept g xs = Except.ok ys →
      List.Forall₂ (fun x y => g x = Except.ok y) xs ys := by
  intro xs
  induction xs with
  | nil =>
    intro ys h
    unfold mapExcept at h
    injection h with h
    subst h
    exact List.Forall₂.nil
  | cons x xs ih =>
    intro ys h
    unfold mapExcept at h
    cases hg : g x with
    | error e => rw [hg] at h; exact Except.noConfusion h
    | ok y =>
      rw [hg] at h
      cases hm : mapExcept g xs with
      | error e => rw [hm] at h; exact Except.noConfusion h
      | ok ys' =>
        rw [hm] at h
        injection h with h
        subst h
        exact List.Forall₂.cons hg (ih ys' hm)

/-- If some list element makes the callback throw, the whole `mapExcept` run
ends in an error. -/
theorem mapExcept_error_of_mem {α β : Type} (g : α → Except TRPCError β) :
    ∀ (xs : List α) (x : α), x ∈ xs → (∃ e0, g x = Except.error e0) →
      ∃ e, mapExcept g xs = Except.error e := by
  intro xs
  induction xs with
  | nil => intro x hx _; exact absurd hx (List.not_mem_nil x)
  | cons a as ih =>
    intro x hx he
    unfold mapExcept
    cases hga : g a with
    | error e => exact ⟨e, rfl⟩
    | ok y =>
      rcases List.mem_cons.mp hx with rfl | hx'
      · obtain ⟨e0, he0⟩ := he
        rw [he0] at hga
        exact Except.noConfusion hga
      · obtain ⟨e, hme⟩ := ih x hx' he
        exact ⟨e, by rw [hme]⟩

/-- The `.reduce` step of `getParameterObjects` is the partition of the entries
by location, each entry contributing its (possibly optional-rewrapped) node. -/
theorem reduceParams_eq (entries : List ParamEntry) :
    reduceParams entries =
      ((entries.filter (fun e => e.paramType == ParamType.path)).map paramPair,
       (entries.filter (fun e => e.paramType == ParamType.query)).map paramPair) := by
  have aux : ∀ (es : List ParamEntry) (acc : List (String × ZodType) × List (String × ZodType)),
      es.foldl
        (fun acc e =>
          let node := if e.required then e.schema else ZodType.optional e.schema
          match e.paramType with
          | .path => (acc.1 ++ [(e.name, node)], acc.2)
          | .query => (acc.1, acc.2 ++ [(e.name, node)]))
        acc =
      (acc.1 ++ (es.filter (fun e => e.paramType == ParamType.path)).map paramPair,
       acc.2 ++ (es.filter (fun e => e.paramType == ParamType.query)).map paramPair) := by
    intro es
    induction es with
    | nil => intro acc; simp
    | cons e es ih =>
      intro acc
      rw [List.foldl_cons, ih]
      cases hpt : e.paramType <;>
        simp [List.filter_cons, hpt, paramPair, List.append_assoc]
  rw [reduceParams, aux]
  simp

/-- On success, the derived entries carry exactly the filtered field names, with
location decided by path-parameter membership. -/
theorem mapExceptShape_names (c r : Bool) (pp : List String) :
    ∀ (xs : List (String × ZodType)) (ys : List ParamEntry),
      mapExcept (fun p => mapShapeKey c r pp p.1 p.2) xs = Except.ok ys →
      ys.map (fun e => (e.name, e.paramType)) =
        xs.map (fun p => (p.1, if pp.contains p.1 then ParamType.path else ParamType.query)) := by
  intro xs ys h
  have h2 := mapExcept_ok_forall₂ _ xs ys h
  clear h
  induction h2 with
  | nil => rfl
  | cons hg _ ih =>
    have he := mapShapeKey_ok_eq _ _ _ _ _ _ hg
    subst he
    simpa using ih

/-- A path-parameter field whose node is optional-wrapped always makes the
per-field derivation fail (either with the unsupported-type error raised first,
or with the optional-path-parameter error). -/
theorem mapShapeKey_optional_path_errors (c r : Bool) (pp : List String) (k : String)
    (f : ZodType) (hk : pp.contains k = true) (hopt : instanceofZodTypeOptional f = true) :
    ∃ e, mapShapeKey c r pp k f = Except.error e := by
  have hk' : k ∈ pp := by simpa using hk
  unfold mapShapeKey finishShapeKey
  cases hls : instanceofZodTypeLikeString f <;> cases c <;>
    cases hco : instanceofZodTypeCoercible f <;>
      simp [hls, hco, hopt, hk, hk']

/-- Inversion of a successful `getParameterObjects` call on an object-shaped
schema: the result is built from the entries of the filtered shape by the
`.reduce` step, with the headers schema installed verbatim. -/
theorem getParameterObjects_ok_some_inv (c : Bool) (s : ZodType) (pp : List String)
    (hdrs : Option ZodType) (it : InType) (shape : List (String × ZodType))
    (res : ZodOpenApiParameters)
    (hu : unwrapZodType s true = ZodType.object shape)
    (h : getParameterObjects c (Unknown.zod s) pp hdrs it = Except.ok (some res)) :
    ∃ entries,
      mapExcept (fun p => mapShapeKey c (!ZodType.isOptional s) pp p.1 p.2)
          (shape.filter (fun p => scopeSelects pp it p.1)) = Except.ok entries ∧
      res = { header := hdrs,
              path := ZodType.object (reduceParams entries).1,
              query := ZodType.object (reduceParams entries).2 } := by
  unfold getParameterObjects at h
  dsimp only at h
  rw [hu] at h
  rw [show (pp.length == 0 && instanceofZodTypeLikeVoid (ZodType.object shape)) = false by
    simp [instanceofZodTypeLikeVoid]] at h
  simp only [Bool.false_eq_true, if_false] at h
  cases hfind : pp.find? (fun p => !(shape.map Prod.fst).contains p) with
  | some missing => rw [hfind] at h; exact Except.noConfusion h
  | none =>
    rw [hfind] at h
    cases hme : mapExcept (fun p => mapShapeKey c (!ZodType.isOptional s) pp p.1 p.2)
        (shape.filter (fun p => scopeSelects pp it p.1)) with
    | error e => rw [hme] at h; exact Except.noConfusion h
    | ok entries =>
      rw [hme] at h
      injection h with h
      injection h with h
      exact ⟨entries, rfl, h.symm⟩

/-- Full characterization of `getRequestBodyObject` on object-shaped input:
path-parameter fields are removed, the body is absent exactly when a declared
path parameter exists and the deduped shape is empty, and otherwise the deduped
schema is repeated under every requested content type. -/
theorem getRequestBodyObject_eq (s : ZodType) (pp cts : List String)
    (shape : List (String × ZodType)) (hu : unwrapZodType s true = ZodType.object shape) :
    getRequestBodyObject (Unknown.zod s) pp cts =
      Except.ok
        (if decide (pp.length > 0) && ((shape.filter (fun p => !pp.contains p.1)).length == 0)
         then none
         else some { required := !ZodType.isOptional s,
                     content := cts.map (fun ct =>
                       (ct, ZodType.object (shape.filter (fun p => !pp.contains p.1)))) }) := by
  unfold getRequestBodyObject
  dsimp only
  rw [hu]
  rw [show (pp.length == 0 && instanceofZodTypeLikeVoid (ZodType.object shape)) = false by
    simp [instanceofZodTypeLikeVoid]]
  simp only [Bool.false_eq_true, if_false]
  split <;> rfl

/-- The headers schema is a frame of `getParameterObjects`: the call's result is
the result for absent headers with the headers schema installed at the end. -/
theorem getParameterObjects_header_frame (c : Bool) (schema : Unknown) (pp : List String)
    (hdrs : Option ZodType) (it : InType) :
    getParameterObjects c schema pp hdrs it =
      (getParameterObjects c schema pp none it).map
        (Option.map (fun r => { r with header := hdrs })) := by
  cases schema with
  | notZod => rfl
  | zod s =>
    unfold getParameterObjects
    dsimp only
    split
    · rfl
    · split
      · split
        · rfl
        · split
          · rfl
          · rfl
      · rfl

/-! ### Claim theorems -/

/-- C1: for every field on which the per-field derivation of
`getParameterObjects` succeeds (with `isRequired` computed from the top-level
schema as the source does), the entry's `required` flag is true for a path
parameter and, for a query field, true iff the top-level schema is not
optional-wrapped and the field's own node is not optional; and the `.reduce`
step places into the returned path/query objects the entry's node wrapped back
in an optional marker exactly when `required` is false. -/
theorem c1_required_flag_and_optional_rewrap :
    (∀ (coerce : Bool) (s : ZodType) (pp : List String) (k : String) (f : ZodType)
       (e : ParamEntry),
        mapShapeKey coerce (!ZodType.isOptional s) pp k f = Except.ok e →
        e.required = (pp.contains k || (!isOptionalWrapper s && !isOptionalWrapper f))) ∧
    (∀ (entries : List ParamEntry) (k : String) (v : ZodType),
        ((k, v) ∈ (reduceParams entries).1 ∨ (k, v) ∈ (reduceParams entries).2) →
        ∃ e, e ∈ entries ∧ e.name = k ∧
          v = (if e.required then e.schema else ZodType.optional e.schema)) := by
  constructor
  · intro coerce s pp k f e h
    have he := mapShapeKey_ok_eq _ _ _ _ _ _ h
    subst he
    rfl
  · intro entries k v hv
    rw [reduceParams_eq] at hv
    rcases hv with hv | hv <;>
    · obtain ⟨e, he, hpair⟩ := List.mem_map.mp hv
      have he' := List.mem_filter.mp he
      rw [paramPair, Prod.ext_iff] at hpair
      exact ⟨e, he'.1, hpair.1, hpair.2.symm⟩

/-- C1 witness at a concrete field. -/
theorem c1_witness :
    (⟨"a", ParamType.query, true, ZodType.string⟩ : ParamEntry).required =
      (([] : List String).contains "a" ||
        (!isOptionalWrapper (ZodType.object []) && !isOptionalWrapper ZodType.string)) :=
  c1_required_flag_and_optional_rewrap.1 true (ZodType.object []) [] "a" ZodType.string
    ⟨"a", ParamType.query, true, ZodType.string⟩ rfl

/-- C2: whenever a field is a declared path parameter and its per-field
derivation succeeds, the resulting entry is a path parameter with
`required = true`, regardless of the top-level required flag and of the field's
own node. -/
theorem c2_path_parameter_always_required :
    ∀ (coerce isRequired : Bool) (pp : List String) (k : String) (f : ZodType) (e : ParamEntry),
      pp.contains k = true →
      mapShapeKey coerce isRequired pp k f = Except.ok e →
      e.paramType = ParamType.path ∧ e.required = true := by
  intro coerce r pp k f e hk h
  have hk' : k ∈ pp := by simpa using hk
  have he := mapShapeKey_ok_eq _ _ _ _ _ _ h
  subst he
  simp [hk, hk']

/-- C2 witness at a concrete field. -/
theorem c2_witness :
    (⟨"id", ParamType.path, true, ZodType.string⟩ : ParamEntry).paramType = ParamType.path ∧
    (⟨"id", ParamType.path, true, ZodType.string⟩ : ParamEntry).required = true :=
  c2_path_parameter_always_required true true ["id"] "id" ZodType.string
    ⟨"id", ParamType.path, true, ZodType.string⟩ rfl rfl

/-- C3: on an object-shaped input schema, `getRequestBodyObject` removes exactly
the declared path-parameter fields, returns absent iff path parameters were
declared and the deduped shape is empty, and otherwise returns the required
flag with the deduped schema under every requested content type. -/
theorem c3_request_body_characterization :
    ∀ (s : ZodType) (pp cts : List String) (shape : List (String × ZodType)),
      unwrapZodType s true = ZodType.object shape →
      getRequestBodyObject (Unknown.zod s) pp cts =
        Except.ok
          (if decide (pp.length > 0) && ((shape.filter (fun p => !pp.contains p.1)).length == 0)
           then none
           else some { required := !ZodType.isOptional s,
                       content := cts.map (fun ct =>
                         (ct, ZodType.object (shape.filter (fun p => !pp.contains p.1)))) }) :=
  fun s pp cts shape hu => getRequestBodyObject_eq s pp cts shape hu

/-- C3 witness at a concrete schema. -/
theorem c3_witness :
    getRequestBodyObject (Unknown.zod (ZodType.object [("a", ZodType.string)])) []
        ["application/json"] =
      Except.ok (some { required := true,
                        content := [("application/json", ZodType.object [("a", ZodType.string)])] }) :=
  c3_request_body_characterization (ZodType.object [("a", ZodType.string)]) []
    ["application/json"] [("a", ZodType.string)] rfl

/-- C4: on any validator output schema, `getResponsesObject` returns exactly a
`200` entry and a `default` entry; the success content schema is the
no-constraint schema for a void output, the accepts-nothing marker for a never
or undefined output, and the schema itself otherwise; the `default` entry is
the fixed error envelope response object. -/
theorem c4_responses_object_shape :
    ∀ (s : ZodType) (hdrs : Option ZodType),
      getResponsesObject (Unknown.zod s) hdrs =
        Except.ok
          [("200",
            { description := "Successful response", headers := hdrs,
              content := [("application/json",
                match s with
                | ZodType.void => ResponseContentSchema.noConstraint
                | ZodType.never => ResponseContentSchema.acceptsNothing
                | ZodType.undef => ResponseContentSchema.acceptsNothing
                | t => ResponseContentSchema.zodSchema t)] }),
           ("default", errorResponseObject)] := by
  intro s hdrs
  cases s <;> rfl

/-- C5: an input schema unwrapping to a void-like node, together with an empty
path-parameter list, yields absent parameters and an absent body. -/
theorem c5_void_input_absent :
    ∀ (coerce : Bool) (s : ZodType) (hdrs : Option ZodType) (it : InType) (cts : List String),
      instanceofZodTypeLikeVoid (unwrapZodType s true) = true →
      getParameterObjects coerce (Unknown.zod s) [] hdrs it = Except.ok none ∧
      getRequestBodyObject (Unknown.zod s) [] cts = Except.ok none := by
  intro coerce s hdrs it cts h
  constructor
  · simp [getParameterObjects, h]
  · simp [getRequestBodyObject, h]

/-- C5 witness at the void schema. -/
theorem c5_witness :
    getParameterObjects true (Unknown.zod ZodType.void) [] none InType.all = Except.ok none ∧
    getRequestBodyObject (Unknown.zod ZodType.void) [] [] = Except.ok none :=
  c5_void_input_absent true ZodType.void none InType.all [] rfl

/-- C6: a field whose node is neither string-like nor coercible makes the
per-field derivation of `getParameterObjects` fail with code
INTERNAL_SERVER_ERROR, with the "must be ZodString" message when the coercion
capability flag is false and the "must be ZodString, ZodNumber, ZodBoolean,
ZodBigInt or ZodDate" message when it is true. -/
theorem c6_unsupported_field_type_error :
    ∀ (coerce isRequired : Bool) (pp : List String) (k : String) (f : ZodType),
      instanceofZodTypeLikeString f = false →
      ((coerce = false →
          mapShapeKey coerce isRequired pp k f =
            Except.error { message := s!"Input parser key: \"{k}\" must be ZodString",
                           code := "INTERNAL_SERVER_ERROR" }) ∧
       (coerce = true → instanceofZodTypeCoercible f = false →
          mapShapeKey coerce isRequired pp k f =
            Except.error { message := s!"Input parser key: \"{k}\" must be ZodString, ZodNumber, ZodBoolean, ZodBigInt or ZodDate",
                           code := "INTERNAL_SERVER_ERROR" })) := by
  intro coerce r pp k f hs
  constructor
  · rintro rfl
    unfold mapShapeKey
    simp [hs]
  · rintro rfl hc
    unfold mapShapeKey
    simp [hs, hc]

/-- C6 witness at a concrete non-string, non-coercible situation. -/
theorem c6_witness :
    mapShapeKey false true [] "n" ZodType.number =
      Except.error { message := "Input parser key: \"n\" must be ZodString",
                     code := "INTERNAL_SERVER_ERROR" } :=
  (c6_unsupported_field_type_error false true [] "n" ZodType.number rfl).1 rfl

/-- C7 counterexample: with scope `query`, a declared path parameter whose
matching field is optional-wrapped is excluded by the scope filter, and the
call returns a result instead of throwing — refuting the claim's "for every
scope value". -/
theorem c7_counterexample_scope_query :
    getParameterObjects true
        (Unknown.zod (ZodType.object [("id", ZodType.optional ZodType.string)]))
        ["id"] none InType.query =
      Except.ok (some { header := none, path := ZodType.object [], query := ZodType.object [] }) :=
  rfl

/-- C7 amended: declaring a path parameter whose matching field is
optional-wrapped makes `getParameterObjects` throw for the scopes that select
path parameters (`all` and `path`); and whenever the field's own derivation is
reached past the string-like/coercible admissibility check, the error is the
optional-path-parameter one. -/
theorem c7_amended_optional_path_parameter :
    (∀ (coerce : Bool) (s : ZodType) (pp : List String) (hdrs : Option ZodType) (it : InType)
       (shape : List (String × ZodType)) (k : String) (f : ZodType),
        (it = InType.all ∨ it = InType.path) →
        unwrapZodType s true = ZodType.object shape →
        (k, f) ∈ shape →
        pp.contains k = true →
        instanceofZodTypeOptional f = true →
        ∃ e, getParameterObjects coerce (Unknown.zod s) pp hdrs it = Except.error e) ∧
    (∀ (coerce isRequired : Bool) (pp : List String) (k : String) (f : ZodType),
        pp.contains k = true →
        instanceofZodTypeOptional f = true →
        (instanceofZodTypeLikeString f || (coerce && instanceofZodTypeCoercible f)) = true →
        mapShapeKey coerce isRequired pp k f =
          Except.error { message := s!"Path parameter: \"{k}\" must not be optional",
                         code := "INTERNAL_SERVER_ERROR" }) := by
  constructor
  · intro coerce s pp hdrs it shape k f hit hu hmem hk hopt
    unfold getParameterObjects
    dsimp only
    rw [hu]
    rw [show (pp.length == 0 && instanceofZodTypeLikeVoid (ZodType.object shape)) = false by
      simp [instanceofZodTypeLikeVoid]]
    simp only [Bool.false_eq_true, if_false]
    cases hfind : pp.find? (fun p => !(shape.map Prod.fst).contains p) with
    | some missing => exact ⟨_, rfl⟩
    | none =>
      have hk' : k ∈ pp := by simpa using hk
      have hsel : scopeSelects pp it k = true := by
        rcases hit with rfl | rfl <;> simp [scopeSelects, hk, hk']
      have hmem' : (k, f) ∈ shape.filter (fun p => scopeSelects pp it p.1) :=
        List.mem_filter.mpr ⟨hmem, hsel⟩
      obtain ⟨e1, he1⟩ :=
        mapExcept_error_of_mem
          (fun p => mapShapeKey coerce (!ZodType.isOptional s) pp p.1 p.2)
          (shape.filter (fun p => scopeSelects pp it p.1)) (k, f) hmem'
          (mapShapeKey_optional_path_errors coerce (!ZodType.isOptional s) pp k f hk hopt)
      rw [he1]
      exact ⟨e1, rfl⟩
  · intro coerce r pp k f hk hopt hadm
    have hk' : k ∈ pp := by simpa using hk
    unfold mapShapeKey finishShapeKey
    rcases Bool.or_eq_true_iff.mp hadm with hls | hca
    · simp [hls, hopt, hk, hk']
    · obtain ⟨hc, hco⟩ := Bool.and_eq_true_iff.mp hca
      subst hc
      cases hls : instanceofZodTypeLikeString f <;> simp [hls, hco, hopt, hk, hk']

/-- C7 amended witness at a concrete optional path parameter. -/
theorem c7_witness :
    ∃ e, getParameterObjects true
        (Unknown.zod (ZodType.object [("id", ZodType.optional ZodType.string)]))
        ["id"] none InType.all = Except.error e :=
  c7_amended_optional_path_parameter.1 true
    (ZodType.object [("id", ZodType.optional ZodType.string)]) ["id"] none InType.all
    [("id", ZodType.optional ZodType.string)] "id" (ZodType.optional ZodType.string)
    (Or.inl rfl) rfl (List.mem_singleton.mpr rfl) rfl rfl

/-- C9: the `header` component of a successful `getParameterObjects` result is
exactly the supplied headers schema, and the headers schema influences nothing
else — success/failure, the error, and the path/query components are identical
for any two headers arguments. -/
theorem c9_headers_opaque :
    (∀ (coerce : Bool) (schema : Unknown) (pp : List String) (hdrs : Option ZodType)
       (it : InType) (res : ZodOpenApiParameters),
        getParameterObjects coerce schema pp hdrs it = Except.ok (some res) →
        res.header = hdrs) ∧
    (∀ (coerce : Bool) (schema : Unknown) (pp : List String) (h1 h2 : Option ZodType)
       (it : InType),
        (getParameterObjects coerce schema pp h1 it).map
            (Option.map (fun r => (r.path, r.query))) =
          (getParameterObjects coerce schema pp h2 it).map
            (Option.map (fun r => (r.path, r.query)))) := by
  constructor
  · intro coerce schema pp hdrs it res h
    rw [getParameterObjects_header_frame] at h
    cases hb : getParameterObjects coerce schema pp none it with
    | error e => rw [hb] at h; exact Except.noConfusion h
    | ok o =>
      rw [hb] at h
      cases o with
      | none => simp [Except.map, Option.map] at h
      | some r0 =>
        simp only [Except.map, Option.map] at h
        injection h with h
        injection h with h
        subst h
        rfl
  · intro coerce schema pp h1 h2 it
    rw [getParameterObjects_header_frame coerce schema pp h1 it,
        getParameterObjects_header_frame coerce schema pp h2 it]
    cases getParameterObjects coerce schema pp none it with
    | error e => rfl
    | ok o =>
      cases o with
      | none => rfl
      | some r0 => rfl

/-- C9 witness at a concrete call. -/
theorem c9_witness :
    (⟨some (ZodType.object []), ZodType.object [], ZodType.object []⟩ :
        ZodOpenApiParameters).header = some (ZodType.object []) :=
  c9_headers_opaque.1 true (Unknown.zod (ZodType.object [])) [] (some (ZodType.object []))
    InType.all ⟨some (ZodType.object []), ZodType.object [], ZodType.object []⟩ rfl

/-- C10: `getRequestBodyObject` performs no per-field validation and no
path-parameter presence check: on any schema unwrapping to an object shape it
returns a result, and its only possible errors are the not-a-validator and
input-not-object ones. -/
theorem c10_request_body_error_kinds :
    (∀ (s : ZodType) (pp cts : List String) (shape : List (String × ZodType)),
        unwrapZodType s true = ZodType.object shape →
        ∃ r, getRequestBodyObject (Unknown.zod s) pp cts = Except.ok r) ∧
    (∀ (schema : Unknown) (pp cts : List String) (e : TRPCError),
        getRequestBodyObject schema pp cts = Except.error e →
        e = { message := "Input parser expects a Zod validator",
              code := "INTERNAL_SERVER_ERROR" } ∨
        e = { message := "Input parser must be a ZodObject",
              code := "INTERNAL_SERVER_ERROR" }) := by
  constructor
  · intro s pp cts shape hu
    exact ⟨_, getRequestBodyObject_eq s pp cts shape hu⟩
  · intro schema pp cts e h
    cases schema with
    | notZod =>
      left
      unfold getRequestBodyObject at h
      injection h with h
      exact h.symm
    | zod s =>
      unfold getRequestBodyObject at h
      dsimp only at h
      split at h
      · exact Except.noConfusion h
      · split at h
        · split at h
          · exact Except.noConfusion h
          · exact Except.noConfusion h
        · right
          injection h with h
          exact h.symm

/-- C10 witness at a concrete schema. -/
theorem c10_witness :
    ∃ r, getRequestBodyObject (Unknown.zod (ZodType.object [("a", ZodType.string)])) []
        ["application/json"] = Except.ok r :=
  c10_request_body_error_kinds.1 (ZodType.object [("a", ZodType.string)]) []
    ["application/json"] [("a", ZodType.string)] rfl

/-- Two lists whose name/tag projections agree have equal name lists after
filtering on any tag. -/
theorem map_names_filter {α β γ : Type} (nm1 : α → γ) (tag1 : α → ParamType)
    (nm2 : β → γ) (tag2 : β → ParamType) :
    ∀ (l1 : List α) (l2 : List β),
      l1.map (fun a => (nm1 a, tag1 a)) = l2.map (fun b => (nm2 b, tag2 b)) →
      ∀ pt : ParamType,
        (l1.filter (fun a => tag1 a == pt)).map nm1 =
          (l2.filter (fun b => tag2 b == pt)).map nm2 := by
  intro l1
  induction l1 with
  | nil =>
    intro l2 h pt
    cases l2 with
    | nil => rfl
    | cons b l2 => exact absurd h (by simp)
  | cons a l1 ih =>
    intro l2 h pt
    cases l2 with
    | nil => exact absurd h (by simp)
    | cons b l2 =>
      simp only [List.map_cons, List.cons.injEq, Prod.mk.injEq] at h
      obtain ⟨⟨hn, ht⟩, htail⟩ := h
      rw [List.filter_cons, List.filter_cons, ht]
      split <;> simp [List.map_cons, hn, ih l2 htail pt]

/-- C8 counterexample: with scope `query`, both derivations succeed on
`{id: string}` with path parameter `id`, yet the union of derived field names
is empty while the original object has the field `id` — refuting the claim for
that scope. -/
theorem c8_counterexample_scope_query :
    getParameterObjects true (Unknown.zod (ZodType.object [("id", ZodType.string)]))
        ["id"] none InType.query =
      Except.ok (some { header := none, path := ZodType.object [], query := ZodType.object [] }) ∧
    getRequestBodyObject (Unknown.zod (ZodType.object [("id", ZodType.string)]))
        ["id"] ["application/json"] = Except.ok none ∧
    "id" ∈ ([("id", ZodType.string)] : List (String × ZodType)).map Prod.fst ∧
    "id" ∉ unionFieldNames
        { header := none, path := ZodType.object [], query := ZodType.object [] } none := by
  refine ⟨rfl, rfl, ?_, ?_⟩ <;>
    simp [unionFieldNames, objKeys, bodyFieldNames]

/-- C8 amended: for scope `all` or `path` (and at least one requested content
type), whenever both derivations succeed on an object-shaped input, the union
of the field names of the derived path parameters, query parameters and request
body equals the field-name set of the original unwrapped object; for scope
`query` the property fails, as declared path-parameter fields appear in neither
the parameters nor the body. -/
theorem c8_amended_field_name_partition :
    ∀ (coerce : Bool) (s : ZodType) (pp : List String) (hdrs : Option ZodType) (it : InType)
      (cts : List String) (shape : List (String × ZodType)) (res : ZodOpenApiParameters)
      (body : Option ZodOpenApiRequestBodyObject),
      (it = InType.all ∨ it = InType.path) →
      cts ≠ [] →
      unwrapZodType s true = ZodType.object shape →
      getParameterObjects coerce (Unknown.zod s) pp hdrs it = Except.ok (some res) →
      getRequestBodyObject (Unknown.zod s) pp cts = Except.ok body →
      ∀ k, k ∈ unionFieldNames res body ↔ k ∈ shape.map Prod.fst := by
  intro coerce s pp hdrs it cts shape res body hit hcts hu hres hbody k
  have hbn : bodyFieldNames body = (shape.filter (fun p => !pp.contains p.1)).map Prod.fst := by
    rw [getRequestBodyObject_eq s pp cts shape hu] at hbody
    injection hbody with hbody
    subst hbody
    by_cases hc :
        (decide (pp.length > 0) &&
          ((shape.filter (fun p => !pp.contains p.1)).length == 0)) = true
    · rw [if_pos hc]
      have hlen := (Bool.and_eq_true_iff.mp hc).2
      have hnil : shape.filter (fun p => !pp.contains p.1) = [] :=
        List.length_eq_zero.mp (by simpa using hlen)
      rw [hnil]
      rfl
    · rw [if_neg hc]
      cases cts with
      | nil => exact absurd rfl hcts
      | cons ct cts' => simp [bodyFieldNames, objKeys]
  obtain ⟨entries, hent, hresEq⟩ :=
    getParameterObjects_ok_some_inv coerce s pp hdrs it shape res hu hres
  subst hresEq
  have hnames := mapExceptShape_names coerce (!ZodType.isOptional s) pp
    (shape.filter (fun p => scopeSelects pp it p.1)) entries hent
  have hfilters := map_names_filter (fun e : ParamEntry => e.name)
    (fun e : ParamEntry => e.paramType) (fun p : String × ZodType => p.1)
    (fun p : String × ZodType => if pp.contains p.1 then ParamType.path else ParamType.query)
    entries (shape.filter (fun p => scopeSelects pp it p.1)) hnames
  have hifpath : ∀ b : Bool,
      ((if b then ParamType.path else ParamType.query) == ParamType.path) = b := by
    intro b; cases b <;> rfl
  have hifquery : ∀ b : Bool,
      ((if b then ParamType.path else ParamType.query) == ParamType.query) = !b := by
    intro b; cases b <;> rfl
  have hpl : (reduceParams entries).1.map Prod.fst =
      ((shape.filter (fun p => scopeSelects pp it p.1)).filter
        (fun p => pp.contains p.1)).map Prod.fst := by
    rw [reduceParams_eq]
    have h1 := hfilters ParamType.path
    simp only [hifpath] at h1
    simpa [List.map_map, Function.comp, paramPair] using h1
  have hql : (reduceParams entries).2.map Prod.fst =
      ((shape.filter (fun p => scopeSelects pp it p.1)).filter
        (fun p => !pp.contains p.1)).map Prod.fst := by
    rw [reduceParams_eq]
    have h2 := hfilters ParamType.query
    simp only [hifquery] at h2
    simpa [List.map_map, Function.comp, paramPair] using h2
  simp only [unionFieldNames, objKeys, hbn, hpl, hql, List.mem_append]
  rcases hit with rfl | rfl
  · simp only [scopeSelects, List.filter_true]
    constructor
    · rintro ((hk | hk) | hk) <;>
      · obtain ⟨p, hp, hpk⟩ := List.mem_map.mp hk
        exact List.mem_map.mpr ⟨p, (List.mem_filter.mp hp).1, hpk⟩
    · intro hk
      obtain ⟨p, hp, hpk⟩ := List.mem_map.mp hk
      by_cases hin : pp.contains p.1 = true
      · exact Or.inl (Or.inl (List.mem_map.mpr ⟨p, List.mem_filter.mpr ⟨hp, hin⟩, hpk⟩))
      · exact Or.inr (List.mem_map.mpr
          ⟨p, List.mem_filter.mpr ⟨hp, by simpa using hin⟩, hpk⟩)
  · simp only [scopeSelects]
    constructor
    · rintro ((hk | hk) | hk)
      · obtain ⟨p, hp, hpk⟩ := List.mem_map.mp hk
        exact List.mem_map.mpr
          ⟨p, (List.mem_filter.mp (List.mem_filter.mp hp).1).1, hpk⟩
      · obtain ⟨p, hp, hpk⟩ := List.mem_map.mp hk
        exact List.mem_map.mpr
          ⟨p, (List.mem_filter.mp (List.mem_filter.mp hp).1).1, hpk⟩
      · obtain ⟨p, hp, hpk⟩ := List.mem_map.mp hk
        exact List.mem_map.mpr ⟨p, (List.mem_filter.mp hp).1, hpk⟩
    · intro hk
      obtain ⟨p, hp, hpk⟩ := List.mem_map.mp hk
      by_cases hin : pp.contains p.1 = true
      · exact Or.inl (Or.inl (List.mem_map.mpr
          ⟨p, List.mem_filter.mpr ⟨List.mem_filter.mpr ⟨hp, hin⟩, hin⟩, hpk⟩))
      · exact Or.inr (List.mem_map.mpr
          ⟨p, List.mem_filter.mpr ⟨hp, by simpa using hin⟩, hpk⟩)

/-- C8 amended witness at a concrete schema with one path and one query field. -/
theorem c8_witness :
    ("id" ∈ unionFieldNames
        { header := none, path := ZodType.object [("id", ZodType.string)],
          query := ZodType.object [("q", ZodType.string)] }
        (some { required := true,
                content := [("application/json", ZodType.object [("q", ZodType.string)])] })) ↔
      "id" ∈ ([("id", ZodType.string), ("q", ZodType.string)] :
        List (String × ZodType)).map Prod.fst :=
  c8_amended_field_name_partition true
    (ZodType.object [("id", ZodType.string), ("q", ZodType.string)]) ["id"] none InType.all
    ["application/json"] [("id", ZodType.string), ("q", ZodType.string)]
    { header := none, path := ZodType.object [("id", ZodType.string)],
      query := ZodType.object [("q", ZodType.string)] }
    (some { required := true,
            content := [("application/json", ZodType.object [("q", ZodType.string)])] })
    (Or.inl rfl) (by simp) rfl rfl rfl "id"
